import Mathlib

/-
  Verification development for the Anchor daily-planning assistant.

  The Python sources under app/ are shallowly embedded below:
  - app/schema.py      : MessageType, TimeBlock, TaskTiming, LLMResponse.from_llm_output
  - app/llm.py         : LLMService.process_message (context merge)
  - app/storage.py     : RedisStorage.save_context / get_context / cleanup_old_contexts
  - app/calendar_service.py : EventDetails.check_constraints
  - app/routes.py      : create_calendar_event, webhook response assembly

  Strings are modelled as List Char (Python str is a character sequence and the
  code indexes by character).  Python semantics that matter are modelled
  explicitly: truthiness (empty string / None are falsy), str.rfind (last
  occurrence), slice semantics, str.strip, json.loads (a JSON reader over the
  integer subset actually exchanged), and dict.get with last-key-wins for
  duplicate JSON keys, as CPython's json module produces.
-/

namespace Anchor

/-! ## Python string primitives -/

/-- Characters stripped by Python `str.strip()` (ASCII whitespace). -/
def isPyWhitespace (c : Char) : Bool :=
  c = ' ' ∨ c = '\t' ∨ c = '\n' ∨ c = '\r' ∨ c = Char.ofNat 11 ∨ c = Char.ofNat 12

/-- `str.strip()` from the left. -/
def pyLStrip (s : List Char) : List Char := s.dropWhile isPyWhitespace

/-- `str.strip()` on both ends. -/
def pyStrip (s : List Char) : List Char :=
  ((pyLStrip s).reverse.dropWhile isPyWhitespace).reverse

/-- Python slice `s[a:b]` (character indices, clamped, empty when `a ≥ b`). -/
def pySlice (s : List Char) (a b : Nat) : List Char := (s.take b).drop a

/-- Does `pat` occur in `hay` starting at index `i`? -/
def matchesAt (hay pat : List Char) (i : Nat) : Bool :=
  pat.isPrefixOf (hay.drop i)

/-- Search downward from index `n` for the greatest index at which `pat` matches. -/
def rfindFrom (hay pat : List Char) : Nat → Option Nat
  | 0 => if matchesAt hay pat 0 then some 0 else none
  | n + 1 => if matchesAt hay pat (n + 1) then some (n + 1) else rfindFrom hay pat n

/-- Python `str.rfind`: index of the last occurrence of `pat` in `hay`, if any. -/
def pyRFind (hay pat : List Char) : Option Nat :=
  rfindFrom hay pat hay.length

/-! ## JSON values and `json.loads`

The model output exchanges only null, booleans, integers, strings, arrays and
objects; the reader below covers exactly that subset of JSON (numbers with a
fractional or exponent part are not produced by the prompt contract and are
rejected rather than read as floats). -/

inductive Json where
  | null : Json
  | bool : Bool → Json
  | num : Int → Json
  | str : List Char → Json
  | arr : List Json → Json
  | obj : List (List Char × Json) → Json

/-- Opening brace character. -/
def lbrace : Char := Char.ofNat 123

/-- Closing brace character. -/
def rbrace : Char := Char.ofNat 125

/-- JSON insignificant whitespace. -/
def skipWs (s : List Char) : List Char :=
  s.dropWhile (fun c => c = ' ' ∨ c = '\t' ∨ c = '\n' ∨ c = '\r')

/-- Value of a hex digit. -/
def hexVal (c : Char) : Option Nat :=
  if '0' ≤ c ∧ c ≤ '9' then some (c.toNat - 48)
  else if 'a' ≤ c ∧ c ≤ 'f' then some (c.toNat - 87)
  else if 'A' ≤ c ∧ c ≤ 'F' then some (c.toNat - 55)
  else none

/-- Single-character JSON escapes. -/
def escChar (c : Char) : Option Char :=
  if c = '"' then some '"'
  else if c = '\\' then some '\\'
  else if c = '/' then some '/'
  else if c = 'b' then some (Char.ofNat 8)
  else if c = 'f' then some (Char.ofNat 12)
  else if c = 'n' then some '\n'
  else if c = 'r' then some '\r'
  else if c = 't' then some '\t'
  else none

/-- Read a JSON string body (the opening quote already consumed). -/
def parseJStrAux : List Char → Option (List Char × List Char)
  | [] => none
  | c :: rest =>
    if c = '"' then some ([], rest)
    else if c = '\\' then
      match rest with
      | [] => none
      | e :: rest2 =>
        if e = 'u' then
          match rest2 with
          | h1 :: h2 :: h3 :: h4 :: rest3 =>
            match hexVal h1, hexVal h2, hexVal h3, hexVal h4 with
            | some a, some b, some c2, some d =>
              match parseJStrAux rest3 with
              | some (s, r) => some (Char.ofNat (((a * 16 + b) * 16 + c2) * 16 + d) :: s, r)
              | none => none
            | _, _, _, _ => none
          | _ => none
        else
          match escChar e with
          | some ec =>
            match parseJStrAux rest2 with
            | some (s, r) => some (ec :: s, r)
            | none => none
          | none => none
    else if c.toNat < 32 then none
    else
      match parseJStrAux rest with
      | some (s, r) => some (c :: s, r)
      | none => none

/-- Numeric value of a digit run. -/
def digitsToNat : List Char → Nat → Nat
  | [], acc => acc
  | c :: rest, acc => digitsToNat rest (acc * 10 + (c.toNat - 48))

/-- Read a JSON integer (rejecting fraction/exponent forms and leading zeros). -/
def parseJNum (s : List Char) : Option (Json × List Char) :=
  let (neg, s1) := match s with
    | '-' :: r => (true, r)
    | _ => (false, s)
  let ds := s1.takeWhile Char.isDigit
  let rest := s1.dropWhile Char.isDigit
  match ds with
  | [] => none
  | d0 :: dtail =>
    if d0 = '0' ∧ dtail ≠ [] then none
    else
      match rest with
      | '.' :: _ => none
      | 'e' :: _ => none
      | 'E' :: _ => none
      | _ =>
        let n : Int := Int.ofNat (digitsToNat ds 0)
        some (.num (if neg then -n else n), rest)

mutual

/-- Read one JSON value; `fuel` bounds structural depth. -/
def parseJVal : Nat → List Char → Option (Json × List Char)
  | 0, _ => none
  | fuel + 1, s =>
    match skipWs s with
    | [] => none
    | c :: rest =>
      if c = '"' then
        match parseJStrAux rest with
        | some (str, r) => some (.str str, r)
        | none => none
      else if c = lbrace then
        match skipWs rest with
        | c2 :: r2 =>
          if c2 = rbrace then some (.obj [], r2)
          else
            match parseJMembers fuel (c2 :: r2) with
            | some (fs, r) => some (.obj fs, r)
            | none => none
        | [] => none
      else if c = '[' then
        match skipWs rest with
        | c2 :: r2 =>
          if c2 = ']' then some (.arr [], r2)
          else
            match parseJItems fuel (c2 :: r2) with
            | some (xs, r) => some (.arr xs, r)
            | none => none
        | [] => none
      else if c = 'n' then
        match rest with
        | 'u' :: 'l' :: 'l' :: r => some (.null, r)
        | _ => none
      else if c = 't' then
        match rest with
        | 'r' :: 'u' :: 'e' :: r => some (.bool true, r)
        | _ => none
      else if c = 'f' then
        match rest with
        | 'a' :: 'l' :: 's' :: 'e' :: r => some (.bool false, r)
        | _ => none
      else parseJNum (c :: rest)

/-- Read object members `"key" : value (, members)* closing-brace`. -/
def parseJMembers : Nat → List Char → Option (List (List Char × Json) × List Char)
  | 0, _ => none
  | fuel + 1, s =>
    match skipWs s with
    | '"' :: r1 =>
      match parseJStrAux r1 with
      | none => none
      | some (key, r2) =>
        match skipWs r2 with
        | ':' :: r3 =>
          match parseJVal fuel r3 with
          | none => none
          | some (v, r4) =>
            match skipWs r4 with
            | ',' :: r5 =>
              match parseJMembers fuel r5 with
              | some (fs, r6) => some ((key, v) :: fs, r6)
              | none => none
            | c :: r5 =>
              if c = rbrace then some ([(key, v)], r5) else none
            | [] => none
        | _ => none
    | _ => none

/-- Read array items `value (, items)* ]`. -/
def parseJItems : Nat → List Char → Option (List Json × List Char)
  | 0, _ => none
  | fuel + 1, s =>
    match parseJVal fuel s with
    | none => none
    | some (v, r1) =>
      match skipWs r1 with
      | ',' :: r2 =>
        match parseJItems fuel r2 with
        | some (xs, r3) => some (v :: xs, r3)
        | none => none
      | ']' :: r2 => some ([v], r2)
      | _ => none

end

/-- Python `json.loads`: the whole input must be one JSON value plus whitespace. -/
def jsonLoads (s : List Char) : Option Json :=
  match parseJVal (s.length + 1) s with
  | some (j, rest) => if skipWs rest = [] then some j else none
  | none => none

/-- `dict.get`: duplicate JSON keys resolve to the last occurrence, as in
CPython's dict construction. -/
def dictGet (fs : List (List Char × Json)) (k : List Char) : Option Json :=
  match fs with
  | [] => none
  | (k', v) :: rest =>
    match dictGet rest k with
    | some r => some r
    | none => if k' = k then some v else none

/-- Python truthiness of a decoded JSON value. -/
def Json.pyTruthy : Json → Bool
  | .null => false
  | .bool b => b
  | .num n => n ≠ 0
  | .str s => s ≠ []
  | .arr xs => !xs.isEmpty
  | .obj fs => !fs.isEmpty

/-! ## app/schema.py -/

/-- `MessageType` enum. -/
inductive MessageType where
  | MORNING_PLANNING : MessageType
  | REPLANNING : MessageType
  | EVENING_REFLECTION : MessageType
  | AD_HOC : MessageType
deriving DecidableEq

/-- The string value of each enum member. -/
def MessageType.value : MessageType → List Char
  | .MORNING_PLANNING => "morning_planning".data
  | .REPLANNING => "replanning".data
  | .EVENING_REFLECTION => "evening_reflection".data
  | .AD_HOC => "ad_hoc".data

/-- `MessageType(s)`: value lookup, `none` models the `ValueError` on an
unrecognized value. -/
def messageTypeOfValue (s : List Char) : Option MessageType :=
  if s = "morning_planning".data then some .MORNING_PLANNING
  else if s = "replanning".data then some .REPLANNING
  else if s = "evening_reflection".data then some .EVENING_REFLECTION
  else if s = "ad_hoc".data then some .AD_HOC
  else none

/-- `schema.TimeBlock`. -/
structure TimeBlock where
  start_time : List Char
  end_time : Option (List Char)
  description : Option (List Char)
  is_focus_block : Bool
deriving DecidableEq

/-- `schema.TaskTiming`. -/
structure TaskTiming where
  duration_minutes : Option Int
  deadline : Option (List Char)
  preferred_time : Option (List Char)
  constraints : List TimeBlock
deriving DecidableEq

/-- `schema.LLMResponse` (the ParsedResponse of the spec). -/
structure LLMResponse where
  response : List Char
  task : Option (List Char)
  message_type : MessageType
  timing : Option TaskTiming
deriving DecidableEq

/-- Decode an optional-string pydantic field: absent and `null` give `None`,
a string passes through, anything else is a validation error. -/
def decodeOptStr : Option Json → Option (Option (List Char))
  | none => some none
  | some .null => some none
  | some (.str s) => some (some s)
  | some _ => none

/-- Decode an optional-int pydantic field. -/
def decodeOptInt : Option Json → Option (Option Int)
  | none => some none
  | some .null => some none
  | some (.num n) => some (some n)
  | some _ => none

/-- Decode a bool pydantic field with default `False` when absent. -/
def decodeBoolDefaultFalse : Option Json → Option Bool
  | none => some false
  | some (.bool b) => some b
  | some _ => none

/-- Decode one `schema.TimeBlock` from a JSON value (`start_time` required). -/
def decodeTimeBlock : Json → Option TimeBlock
  | .obj fs =>
    match dictGet fs "start_time".data with
    | some (.str st) =>
      match decodeOptStr (dictGet fs "end_time".data),
            decodeOptStr (dictGet fs "description".data),
            decodeBoolDefaultFalse (dictGet fs "is_focus_block".data) with
      | some et, some ds, some fb => some ⟨st, et, ds, fb⟩
      | _, _, _ => none
    | _ => none
  | _ => none

/-- Decode every element of a JSON array as a `TimeBlock`. -/
def decodeTimeBlocks : List Json → Option (List TimeBlock)
  | [] => some []
  | j :: rest =>
    match decodeTimeBlock j, decodeTimeBlocks rest with
    | some b, some bs => some (b :: bs)
    | _, _ => none

/-- Decode the `constraints` field: absent gives the `default_factory` empty
list; present values must be an array of time blocks. -/
def decodeConstraints : Option Json → Option (List TimeBlock)
  | none => some []
  | some (.arr xs) => decodeTimeBlocks xs
  | some _ => none

/-- `TaskTiming(**fields)`: pydantic validation of the four timing fields. -/
def decodeTaskTiming (fs : List (List Char × Json)) : Option TaskTiming := do
  let dm ← decodeOptInt (dictGet fs "duration_minutes".data)
  let dl ← decodeOptStr (dictGet fs "deadline".data)
  let pt ← decodeOptStr (dictGet fs "preferred_time".data)
  let cs ← decodeConstraints (dictGet fs "constraints".data)
  pure ⟨dm, dl, pt, cs⟩

/-- `MessageType(info.get("message_type", "ad_hoc"))`: missing key takes the
default; a present value must be a recognized enum string. -/
def decodeMessageTypeField (info : List (List Char × Json)) : Option MessageType :=
  match dictGet info "message_type".data with
  | none => some .AD_HOC
  | some (.str s) => messageTypeOfValue s
  | some _ => none

/-- `TaskTiming(**info["timing"]) if info.get("timing") else None`: a falsy
value (null, 0, "", [], empty object) yields `None`; a truthy non-object cannot
be splatted; a truthy object is validated as a `TaskTiming`. -/
def decodeTimingField (info : List (List Char × Json)) : Option (Option TaskTiming) :=
  match dictGet info "timing".data with
  | none => some none
  | some j =>
    if j.pyTruthy then
      match j with
      | .obj fs => (decodeTaskTiming fs).map some
      | _ => none
    else some none

/-- The marker `"RESPONSE:"`. -/
def responseMarker : List Char := "RESPONSE:".data

/-- The marker `"INFO:"`. -/
def infoMarker : List Char := "INFO:".data

/-- The constant fallback returned when parsing the model output fails. -/
def fallbackLLMResponse : LLMResponse :=
  { response := "Hi! I\x27m here to help you plan your tasks. What would you like to accomplish today?".data
    task := none
    message_type := .AD_HOC
    timing := none }

/-- The body of the `try` block of `LLMResponse.from_llm_output`: `none`
models any raised exception (missing marker, `json.loads` failure, a
non-object INFO payload, `MessageType` ValueError, pydantic ValidationError). -/
def parseLLMOutput (text : List Char) : Option LLMResponse :=
  match pyRFind text responseMarker, pyRFind text infoMarker with
  | some response_idx, some info_idx =>
    let response_text := pyStrip (pySlice text (response_idx + 9) info_idx)
    let info_text := pyStrip (text.drop (info_idx + 5))
    match jsonLoads info_text with
    | some (.obj info) =>
      match decodeOptStr (dictGet info "task".data),
            decodeMessageTypeField info,
            decodeTimingField info with
      | some task, some mt, some timing =>
        some { response := response_text, task := task, message_type := mt, timing := timing }
      | _, _, _ => none
    | _ => none
  | _, _ => none

/-- `LLMResponse.from_llm_output`: the parsed response, or the constant
fallback when the `try` block raises. -/
def from_llm_output (text : List Char) : LLMResponse :=
  (parseLLMOutput text).getD fallbackLLMResponse

/-! ## app/llm.py — context merge in `LLMService.process_message` -/

/-- The per-user context dict carried in Redis (`last_interaction` modelled as
an abstract timestamp). -/
structure Context where
  current_task : Option (List Char)
  message_type : MessageType
  timing : Option TaskTiming
  last_interaction : Nat
deriving DecidableEq

/-- Python `a or b` on an optional string: `None` and `""` are falsy. -/
def pyOrOptStr (a b : Option (List Char)) : Option (List Char) :=
  match a with
  | some s => if s = [] then b else some s
  | none => b

/-- Python `a or b` on a `MessageType` (a `str` enum, falsy only when its
value is the empty string — which never happens for the four members). -/
def pyOrMessageType (a b : MessageType) : MessageType :=
  if a.value = [] then b else a

/-- The `context.update({...})` block of `process_message`. -/
def updateContext (ctx : Context) (r : LLMResponse) (now : Nat) : Context :=
  { current_task := pyOrOptStr r.task ctx.current_task
    message_type := pyOrMessageType r.message_type ctx.message_type
    timing := match r.timing with
      | some t => some t
      | none => ctx.timing
    last_interaction := now }

/-- `LLMService.process_message`, with the LLM collaborator's raw reply passed
in as `raw`: load-or-create the context, parse, merge, and return the parsed
response together with the context handed to `save_context`. -/
def process_message (prior : Option Context) (message_type : Option MessageType)
    (raw : List Char) (now : Nat) : LLMResponse × Context :=
  let context : Context := match prior with
    | some c => c
    | none =>
      { current_task := none
        message_type := match message_type with
          | some m => m
          | none => .AD_HOC
        timing := none
        last_interaction := now }
  let llm_response := from_llm_output raw
  (llm_response, updateContext context llm_response now)

/-! ## app/storage.py -/

/-- A calendar date as `datetime.date` holds it. -/
structure PyDate where
  year : Nat
  month : Nat
  day : Nat
deriving DecidableEq

/-- Gregorian leap year. -/
def isLeapYear (y : Nat) : Bool := y % 4 = 0 ∧ (y % 100 ≠ 0 ∨ y % 400 = 0)

/-- Length of a month. -/
def daysInMonth (y m : Nat) : Nat :=
  if m = 2 then (if isLeapYear y then 29 else 28)
  else if m = 4 ∨ m = 6 ∨ m = 9 ∨ m = 11 then 30
  else 31

/-- Days in year `y` before month `m`. -/
def daysBeforeMonth (y : Nat) : Nat → Nat
  | 0 => 0
  | m + 1 => if m = 0 then 0 else daysBeforeMonth y m + daysInMonth y m

/-- `date.toordinal`: day count from 0001-01-01 = 1; `date` comparison and
`timedelta` subtraction act on this count. -/
def toOrdinal (d : PyDate) : Nat :=
  365 * (d.year - 1) + (d.year - 1) / 4 - (d.year - 1) / 100 + (d.year - 1) / 400
    + daysBeforeMonth d.year d.month + d.day

/-- `date.fromisoformat`: exactly `YYYY-MM-DD` with a valid calendar date;
`none` models the `ValueError`. -/
def parseIsoDate (s : List Char) : Option PyDate :=
  match s with
  | [y1, y2, y3, y4, h1, m1, m2, h2, d1, d2] =>
    if h1 = '-' ∧ h2 = '-' ∧ y1.isDigit ∧ y2.isDigit ∧ y3.isDigit ∧ y4.isDigit ∧
        m1.isDigit ∧ m2.isDigit ∧ d1.isDigit ∧ d2.isDigit then
      let y := ((y1.toNat - 48) * 10 + (y2.toNat - 48)) * 100 + (y3.toNat - 48) * 10 + (y4.toNat - 48)
      let m := (m1.toNat - 48) * 10 + (m2.toNat - 48)
      let d := (d1.toNat - 48) * 10 + (d2.toNat - 48)
      if 1 ≤ y ∧ 1 ≤ m ∧ m ≤ 12 ∧ 1 ≤ d ∧ d ≤ daysInMonth y m then some ⟨y, m, d⟩
      else none
    else none
  | _ => none

/-- Python `str.split(":")`. -/
def splitOnColon : List Char → List (List Char)
  | [] => [[]]
  | c :: rest =>
    let r := splitOnColon rest
    if c = ':' then [] :: r
    else
      match r with
      | h :: t => (c :: h) :: t
      | [] => [[c]]

/-- `key.split(":")[-1]`: the text after the last colon. -/
def lastColonField (s : List Char) : List Char := (splitOnColon s).getLastD []

/-- Does `pat` occur anywhere in `hay`? -/
def containsSub (hay pat : List Char) : Bool :=
  (List.range (hay.length + 1)).any (matchesAt hay pat)

/-- Redis glob `user:*:date:*`: a `user:` prefix with `:date:` occurring later. -/
def matchesUserDatePattern (k : List Char) : Bool :=
  "user:".data.isPrefixOf k && containsSub (k.drop 5) ":date:".data

/-- Should `cleanup_old_contexts` delete this key?  The embedded day component
must parse as a date strictly before `today - timedelta(days)`; a `ValueError`
is skipped (`continue`). -/
def keyOldEnough (today : PyDate) (days : Nat) (key : List Char) : Bool :=
  match parseIsoDate (lastColonField key) with
  | some d => (toOrdinal d : Int) < (toOrdinal today : Int) - (days : Int)
  | none => false

/-- `RedisStorage.cleanup_old_contexts` over the store's key list: returns the
keys left in the store and the `deleted` counter. -/
def cleanup_old_contexts (keys : List (List Char)) (today : PyDate) (days : Nat) :
    List (List Char) × Nat :=
  match keys with
  | [] => ([], 0)
  | k :: rest =>
    let (rem, cnt) := cleanup_old_contexts rest today days
    if matchesUserDatePattern k then
      if keyOldEnough today days k then (rem, cnt + 1) else (k :: rem, cnt)
    else (k :: rem, cnt)

/-- `RedisStorage.get_context`: the Redis read's outcome is passed in; a raised
`ConnectionError` is caught, logged, and collapsed to `None`. -/
def get_context (fetched : Except Unit (Option Context)) : Option Context :=
  match fetched with
  | .ok c => c
  | .error _ => none

/-- `RedisStorage.save_context`: the Redis write's outcome is passed in; a
raised error is caught and reported as `False`. -/
def save_context (written : Except Unit Unit) : Bool :=
  match written with
  | .ok _ => true
  | .error _ => false

/-- The turn as the webhook drives it: context comes through
`RedisStorage.get_context` from the Redis read outcome. -/
def process_turn_with_storage (fetched : Except Unit (Option Context))
    (message_type : Option MessageType) (raw : List Char) (now : Nat) :
    LLMResponse × Context :=
  process_message (get_context fetched) message_type raw now

/-! ## app/calendar_service.py -/

/-- `calendar_service.TimeBlock` (every field required, unlike the schema one). -/
structure CTimeBlock where
  start_time : List Char
  end_time : List Char
  description : List Char
  is_focus_block : Bool
deriving DecidableEq

/-- `datetime.strptime(t, "%H:%M").time()` as minutes after midnight: an hour
of one or two digits at most 23, a colon, a minute of one or two digits at most
59, nothing else; `none` models the `ValueError`. -/
def parseHM (s : List Char) : Option Nat :=
  match s with
  | [] => none
  | c1 :: rest1 =>
    if ¬c1.isDigit then none
    else
      let hr : Nat × List Char := match rest1 with
        | c2 :: r2 =>
          if c2.isDigit ∧ (c1.toNat - 48) * 10 + (c2.toNat - 48) ≤ 23 then
            ((c1.toNat - 48) * 10 + (c2.toNat - 48), r2)
          else (c1.toNat - 48, rest1)
        | [] => (c1.toNat - 48, [])
      match hr.2 with
      | ':' :: m1 :: rest3 =>
        if ¬m1.isDigit then none
        else
          let mr : Nat × List Char := match rest3 with
            | c2 :: r2 =>
              if c2.isDigit ∧ (m1.toNat - 48) * 10 + (c2.toNat - 48) ≤ 59 then
                ((m1.toNat - 48) * 10 + (c2.toNat - 48), r2)
              else (m1.toNat - 48, rest3)
            | [] => (m1.toNat - 48, [])
          if mr.2 = [] then some (hr.1 * 60 + mr.1) else none
      | _ => none

/-- `EventDetails.check_constraints`: event times in minutes after midnight;
`.error` models the uncaught `ValueError` when a block's time fails to parse.
Returns `.ok false` on the first non-focus block containing the event's start
or end, `.ok true` otherwise. -/
def check_constraints (event_start event_end : Nat) : List CTimeBlock → Except Unit Bool
  | [] => .ok true
  | block :: rest =>
    match parseHM block.start_time, parseHM block.end_time with
    | some block_start, some block_end =>
      if (block_start ≤ event_start ∧ event_start ≤ block_end) ∨
          (block_start ≤ event_end ∧ event_end ≤ block_end) then
        if block.is_focus_block then check_constraints event_start event_end rest
        else .ok false
      else check_constraints event_start event_end rest
    | _, _ => .error ()

/-- Does `b` conflict with the candidate interval (a non-focus block holding
the candidate's start or end in `[start_time, end_time]` inclusive)?  Time
values are read through `parseHM`. -/
def blockConflicts (event_start event_end : Nat) (b : CTimeBlock) : Bool :=
  !b.is_focus_block &&
    (let bs := (parseHM b.start_time).getD 0
     let be := (parseHM b.end_time).getD 0
     (decide (bs ≤ event_start) && decide (event_start ≤ be)) ||
       (decide (bs ≤ event_end) && decide (event_end ≤ be)))

/-! ## app/routes.py -/

/-- Coerce a `schema.TimeBlock` into a `calendar_service.TimeBlock` as the
`EventDetails` constructor validates it: `end_time` and `description` are
required there, so a block missing either fails validation. -/
def toCalTimeBlock (b : TimeBlock) : Option CTimeBlock :=
  match b.end_time, b.description with
  | some et, some ds => some ⟨b.start_time, et, ds, b.is_focus_block⟩
  | _, _ => none

/-- Validate the whole constraint list. -/
def toCalTimeBlocks : List TimeBlock → Option (List CTimeBlock)
  | [] => some []
  | b :: rest =>
    match toCalTimeBlock b, toCalTimeBlocks rest with
    | some cb, some cbs => some (cb :: cbs)
    | _, _ => none

/-- The Google-Calendar URL for the event (the query-string encoding of the
collaborator is outside the core; no property below inspects the text). -/
def calendarLinkFor (task : List Char) (_event_start _event_end : Nat) : List Char :=
  "https://calendar.google.com/calendar/render?action=TEMPLATE&text=".data ++ task

/-- `timing.duration_minutes or 30`: `None` and `0` are falsy. -/
def durationOf (timing : TaskTiming) : Int :=
  match timing.duration_minutes with
  | some d => if d = 0 then 30 else d
  | none => 30

/-- `routes.create_calendar_event`: `None` on incomplete timing, on any
validation `ValueError` (bad preferred time, non-positive duration, malformed
constraint blocks or constraint times), and on a constraint conflict; the link
only when the check passes. -/
def create_calendar_event (task : List Char) (timing : TaskTiming) : Option (List Char) :=
  match timing.preferred_time with
  | none => none
  | some pt =>
    if pt = [] then none
    else
      match parseHM pt with
      | none => none
      | some pm =>
        let duration : Int := durationOf timing
        match toCalTimeBlocks timing.constraints with
        | none => none
        | some cbs =>
          if duration ≤ 0 then none
          else
            let event_start := pm
            let event_end := (pm + duration.toNat) % 1440
            match check_constraints event_start event_end cbs with
            | .error _ => none
            | .ok false => none
            | .ok true => some (calendarLinkFor task event_start event_end)

/-- The tail of `routes.webhook`: append the calendar link to the parsed
response text only when a task and timing are present (Python truthiness) and
the event is created. -/
def webhook_response_text (r : LLMResponse) : List Char :=
  match r.task, r.timing with
  | some t, some tm =>
    if t = [] then r.response
    else
      match create_calendar_event t tm with
      | some link => r.response ++ "\n\nAdd to calendar: ".data ++ link
      | none => r.response
  | _, _ => r.response

/-! ## Concrete inputs used to exercise the embedding -/

/-- A well-formed model output (the prompt contract's example shape). -/
def c2ExampleText : List Char :=
  "RESPONSE: Lets lock in 30 minutes at 3pm.\nINFO: \x7b\"task\":\"Call Mom\",\"message_type\":\"ad_hoc\",\"timing\":\x7b\"preferred_time\":\"15:00\",\"duration_minutes\":30,\"deadline\":null,\"constraints\":[]\x7d\x7d".data

/-- The parsed form of the INFO object of `c2ExampleText`. -/
def c2ExampleInfo : List (List Char × Json) :=
  [("task".data, .str "Call Mom".data),
   ("message_type".data, .str "ad_hoc".data),
   ("timing".data, .obj
     [("preferred_time".data, .str "15:00".data),
      ("duration_minutes".data, .num 30),
      ("deadline".data, .null),
      ("constraints".data, .arr [])])]

/-- Valid markers and JSON, but only whitespace between the two markers. -/
def c6Text : List Char :=
  "RESPONSE: INFO: \x7b\"task\": null, \"message_type\": \"ad_hoc\", \"timing\": null\x7d".data

/-- Model output carrying timing with a preferred time but no task. -/
def c7Raw : List Char :=
  "RESPONSE: ok\nINFO: \x7b\"task\": null, \"message_type\": \"ad_hoc\", \"timing\": \x7b\"preferred_time\": \"15:00\"\x7d\x7d".data

/-- Model output whose INFO object has no `message_type` field at all. -/
def c10Text : List Char :=
  "RESPONSE: ok INFO: \x7b\"task\": \"x\", \"timing\": null\x7d".data

/-- The parsed form of the INFO object of `c10Text`. -/
def c10Info : List (List Char × Json) :=
  [("task".data, .str "x".data), ("timing".data, .null)]

/-- A store with keys dated today, today-6, today-7 and today-8 for
today = 2026-10-12. -/
def exampleKeys : List (List Char) :=
  ["user:u1:date:2026-10-12".data,
   "user:u1:date:2026-10-06".data,
   "user:u1:date:2026-10-05".data,
   "user:u1:date:2026-10-04".data]

/-- 2026-10-12, the `today` of the purge example. -/
def exampleToday : PyDate := ⟨2026, 10, 12⟩

/-- A 09:15-10:00 busy block. -/
def exampleBusyBlock : CTimeBlock := ⟨"09:15".data, "10:00".data, "meeting".data, false⟩

/-- The same block marked as a focus block. -/
def exampleFocusBlock : CTimeBlock := ⟨"09:15".data, "10:00".data, "meeting".data, true⟩

/-- Timing for a 09:00 + 30min candidate against a 09:15-10:00 busy block. -/
def exampleConflictTiming : TaskTiming :=
  ⟨some 30, none, some "09:00".data,
   [⟨"09:15".data, some "10:00".data, some "meeting".data, false⟩]⟩

/-- A parsed response carrying the conflicting timing. -/
def exampleConflictResponse : LLMResponse :=
  ⟨"ok".data, some "write report".data, .AD_HOC, some exampleConflictTiming⟩

/-! ## Supporting lemmas -/

/-- `rfindFrom` returns a matching index that is the greatest one not above
the starting bound. -/
theorem rfindFrom_spec (hay pat : List Char) (n i : Nat)
    (h : rfindFrom hay pat n = some i) :
    matchesAt hay pat i = true ∧ ∀ j, i < j → j ≤ n → matchesAt hay pat j = false := by
  induction n with
  | zero =>
    unfold rfindFrom at h
    split at h
    · cases h
      refine ⟨by assumption, ?_⟩
      intro j hj hj0
      omega
    · cases h
  | succ n ih =>
    unfold rfindFrom at h
    split at h
    · cases h
      refine ⟨by assumption, ?_⟩
      intro j hj hjn
      omega
    · obtain ⟨hm, hgt⟩ := ih h
      refine ⟨hm, ?_⟩
      intro j hj hjn
      rcases Nat.lt_or_ge j (n + 1) with hlt | hge
      · exact hgt j hj (Nat.lt_succ_iff.mp hlt)
      · have hj1 : j = n + 1 := Nat.le_antisymm hjn hge
        subst hj1
        rename_i hfalse
        simpa using hfalse

/-- A non-empty pattern cannot match beyond the end of the text. -/
theorem matchesAt_false_of_gt_length (hay pat : List Char) (hpat : pat ≠ [])
    (j : Nat) (hj : hay.length < j) : matchesAt hay pat j = false := by
  unfold matchesAt
  rw [List.drop_eq_nil_of_le (Nat.le_of_lt hj)]
  cases pat with
  | nil => exact absurd rfl hpat
  | cons a l => rfl

/-- The keys left in the store after a purge are exactly those the doom test
rejects, among stores whose keys all match the scan pattern. -/
theorem cleanup_fst (keys : List (List Char)) (today : PyDate) (days : Nat)
    (hpat : ∀ k ∈ keys, matchesUserDatePattern k = true) :
    (cleanup_old_contexts keys today days).1 =
      keys.filter (fun k => !keyOldEnough today days k) := by
  induction keys with
  | nil => rfl
  | cons k rest ih =>
    have hk := hpat k (List.mem_cons_self k rest)
    have hrest := fun x hx => hpat x (List.mem_cons_of_mem k hx)
    unfold cleanup_old_contexts
    rw [hk]
    cases hold : keyOldEnough today days k <;>
      simp [List.filter_cons, hold, ih hrest]

/-- The purge counter equals the number of doomed keys, among stores whose
keys all match the scan pattern. -/
theorem cleanup_snd (keys : List (List Char)) (today : PyDate) (days : Nat)
    (hpat : ∀ k ∈ keys, matchesUserDatePattern k = true) :
    (cleanup_old_contexts keys today days).2 =
      (keys.filter (fun k => keyOldEnough today days k)).length := by
  induction keys with
  | nil => rfl
  | cons k rest ih =>
    have hk := hpat k (List.mem_cons_self k rest)
    have hrest := fun x hx => hpat x (List.mem_cons_of_mem k hx)
    unfold cleanup_old_contexts
    rw [hk]
    cases hold : keyOldEnough today days k <;>
      simp [List.filter_cons, hold, ih hrest]

/-! ## Claims -/

/-- Claim C5: context merge is idempotent — merging the same parsed response
twice yields the same context as merging it once — and a null `task` or
`timing` on the response preserves the prior context's value (a field is
overwritten only when the response carries it). -/
theorem merge_idempotent_null_preserving (ctx : Context) (r : LLMResponse) (now : Nat) :
    updateContext (updateContext ctx r now) r now = updateContext ctx r now ∧
    (r.task = none → (updateContext ctx r now).current_task = ctx.current_task) ∧
    (r.timing = none → (updateContext ctx r now).timing = ctx.timing) := by
  refine ⟨?_, ?_, ?_⟩
  · simp only [updateContext, Context.mk.injEq]
    refine ⟨?_, ?_, ?_, trivial⟩
    · cases r.task with
      | none => rfl
      | some s =>
        by_cases hs : s = [] <;> simp [pyOrOptStr, hs]
    · cases r.message_type <;> rfl
    · cases r.timing <;> rfl
  · intro h
    simp [updateContext, h, pyOrOptStr]
  · intro h
    simp [updateContext, h]

/-- Witness for C5 at a concrete context and response. -/
theorem merge_idempotent_null_preserving_witness :
    updateContext (updateContext ⟨some "a".data, .REPLANNING, none, 3⟩ exampleConflictResponse 7)
        exampleConflictResponse 7 =
      updateContext ⟨some "a".data, .REPLANNING, none, 3⟩ exampleConflictResponse 7 :=
  (merge_idempotent_null_preserving ⟨some "a".data, .REPLANNING, none, 3⟩
    exampleConflictResponse 7).1

/-- Claim C8 (corrected): a storage failure is not surfaced — the turn's entire
outcome under an unreachable store is identical to the outcome with no stored
context. -/
theorem storage_failure_indistinguishable_cex :
    process_turn_with_storage (.error ()) none "hello".data 0 =
      process_turn_with_storage (.ok none) none "hello".data 0 := rfl

/-- Claim C8 (amended): when the store is unreachable the turn degrades to a
context-free turn without crashing, but silently: `get_context` collapses the
failure to `None`, `save_context` reports `False` (which the orchestrator
ignores), and the caller-visible outcome is exactly that of an absent
context. -/
theorem storage_failure_degrades_silently (mtp : Option MessageType) (raw : List Char) (now : Nat) :
    process_turn_with_storage (.error ()) mtp raw now =
        process_turn_with_storage (.ok none) mtp raw now ∧
      get_context (.error ()) = none ∧ save_context (.error ()) = false :=
  ⟨rfl, rfl, rfl⟩

/-- Claim C4: among stores whose keys match the scan pattern, the purge deletes
exactly the keys whose embedded day component parses to a date strictly older
than `today - days`, skips keys whose day component does not parse, and returns
the number deleted. -/
theorem cleanup_deletes_exactly_older (keys : List (List Char)) (today : PyDate) (days : Nat)
    (hpat : ∀ k ∈ keys, matchesUserDatePattern k = true) :
    (cleanup_old_contexts keys today days).1 =
        keys.filter (fun k => !keyOldEnough today days k) ∧
      (cleanup_old_contexts keys today days).2 =
        (keys.filter (fun k => keyOldEnough today days k)).length ∧
      (∀ k, parseIsoDate (lastColonField k) = none → keyOldEnough today days k = false) ∧
      (∀ k d, parseIsoDate (lastColonField k) = some d →
        (keyOldEnough today days k = true ↔
          (toOrdinal d : Int) < (toOrdinal today : Int) - (days : Int))) := by
  refine ⟨cleanup_fst keys today days hpat, cleanup_snd keys today days hpat, ?_, ?_⟩
  · intro k hk
    simp [keyOldEnough, hk]
  · intro k d hk
    simp [keyOldEnough, hk]

/-- Witness for C4: with retention 7 and keys dated today, today-6, today-7 and
today-8, exactly the today-8 key is removed and the counter is 1. -/
theorem cleanup_deletes_exactly_older_witness :
    (cleanup_old_contexts exampleKeys exampleToday 7).1 =
        ["user:u1:date:2026-10-12".data,
         "user:u1:date:2026-10-06".data,
         "user:u1:date:2026-10-05".data] ∧
      (cleanup_old_contexts exampleKeys exampleToday 7).2 = 1 := by
  have h := cleanup_deletes_exactly_older exampleKeys exampleToday 7 (by decide)
  exact ⟨h.1.trans (by decide), h.2.1.trans (by decide)⟩

/-- Claim C3: for constraint blocks whose times parse, the check returns false
exactly when some non-focus block holds the candidate's start or end inside its
inclusive `[start_time, end_time]` interval. -/
theorem check_constraints_conflict_iff (event_start event_end : Nat)
    (blocks : List CTimeBlock)
    (hp : ∀ b ∈ blocks, (parseHM b.start_time).isSome ∧ (parseHM b.end_time).isSome) :
    check_constraints event_start event_end blocks =
        .ok (!blocks.any (blockConflicts event_start event_end)) ∧
      (check_constraints event_start event_end blocks = .ok false ↔
        ∃ b ∈ blocks, blockConflicts event_start event_end b = true) := by
  have hmain : check_constraints event_start event_end blocks =
      .ok (!blocks.any (blockConflicts event_start event_end)) := by
    induction blocks with
    | nil => rfl
    | cons b rest ih =>
      obtain ⟨hs, he⟩ := hp b (List.mem_cons_self b rest)
      have hrest := ih fun x hx => hp x (List.mem_cons_of_mem b hx)
      obtain ⟨bs, hbs⟩ := Option.isSome_iff_exists.mp hs
      obtain ⟨be, hbe⟩ := Option.isSome_iff_exists.mp he
      unfold check_constraints
      rw [hbs, hbe]
      by_cases hin : (bs ≤ event_start ∧ event_start ≤ be) ∨
          (bs ≤ event_end ∧ event_end ≤ be)
      · cases hfoc : b.is_focus_block with
        | true =>
          simp only [hin, if_true, hfoc, hrest, List.any_cons]
          have : blockConflicts event_start event_end b = false := by
            simp [blockConflicts, hfoc]
          rw [this]
          simp
        | false =>
          simp only [hin, if_true, hfoc, List.any_cons]
          have : blockConflicts event_start event_end b = true := by
            simp only [blockConflicts, hfoc, Bool.not_false, Bool.true_and, hbs, hbe,
              Option.getD_some]
            rcases hin with ⟨h1, h2⟩ | ⟨h1, h2⟩ <;> simp [h1, h2]
          rw [this]
          simp
      · have : blockConflicts event_start event_end b = false := by
          simp only [blockConflicts, hbs, hbe, Option.getD_some]
          rcases Bool.eq_false_or_eq_true b.is_focus_block with hfoc | hfoc <;>
            · push_neg at hin
              simp only [hfoc]
              obtain ⟨hin1, hin2⟩ := hin
              rcases Nat.lt_or_ge event_start bs with h1 | h1 <;>
                rcases Nat.lt_or_ge event_end bs with h2 | h2 <;>
                  simp_all [Nat.not_le.mpr, Nat.lt_iff_add_one_le]
        simp only [if_neg hin, List.any_cons, this, hrest]
        simp
  refine ⟨hmain, ?_⟩
  rw [hmain]
  constructor
  · intro h
    have hok : (!blocks.any (blockConflicts event_start event_end)) = false :=
      Except.ok.inj h
    have hany : blocks.any (blockConflicts event_start event_end) = true := by
      simpa using hok
    simpa using List.any_eq_true.mp hany
  · intro h
    have hany : blocks.any (blockConflicts event_start event_end) = true :=
      List.any_eq_true.mpr (by simpa using h)
    rw [hany]
    rfl

/-- Witness for C3: a 09:00-09:30 candidate against a 09:15-10:00 block —
conflict when the block is busy, permitted when it is a focus block. -/
theorem check_constraints_conflict_iff_witness :
    check_constraints 540 570 [exampleBusyBlock] = .ok false ∧
      check_constraints 540 570 [exampleFocusBlock] = .ok true := by
  have h1 := (check_constraints_conflict_iff 540 570 [exampleBusyBlock] (by decide)).1
  have h2 := (check_constraints_conflict_iff 540 570 [exampleFocusBlock] (by decide)).1
  exact ⟨h1.trans (congrArg Except.ok (by decide)),
    h2.trans (congrArg Except.ok (by decide))⟩

/-- Claim C9: when the derived candidate block conflicts with the constraints
(the check returns false), no calendar link is produced, the webhook's reply
text is exactly the parsed response text, and the turn completes normally. -/
theorem conflict_suppresses_calendar_link (r : LLMResponse) (t : List Char)
    (tm : TaskTiming) (pt : List Char) (pm : Nat) (cbs : List CTimeBlock)
    (htask : r.task = some t) (ht : t ≠ [])
    (htm : r.timing = some tm)
    (hpt : tm.preferred_time = some pt) (hpt2 : pt ≠ [])
    (hpm : parseHM pt = some pm)
    (hcbs : toCalTimeBlocks tm.constraints = some cbs)
    (hdur : 0 < durationOf tm)
    (hconf : check_constraints pm ((pm + (durationOf tm).toNat) % 1440) cbs = .ok false) :
    create_calendar_event t tm = none ∧ webhook_response_text r = r.response := by
  have hcreate : create_calendar_event t tm = none := by
    unfold create_calendar_event
    rw [hpt]
    simp only [if_neg hpt2, hpm, hcbs, if_neg (by omega : ¬durationOf tm ≤ 0), hconf]
  refine ⟨hcreate, ?_⟩
  unfold webhook_response_text
  rw [htask, htm]
  simp only [if_neg ht, hcreate]

/-- Witness for C9: a 09:00+30min candidate against a 09:15-10:00 busy
constraint — the link is suppressed and the reply text is untouched. -/
theorem conflict_suppresses_calendar_link_witness :
    create_calendar_event "write report".data exampleConflictTiming = none ∧
      webhook_response_text exampleConflictResponse = exampleConflictResponse.response :=
  conflict_suppresses_calendar_link exampleConflictResponse "write report".data
    exampleConflictTiming "09:00".data 540 [exampleBusyBlock]
    rfl (by decide) rfl rfl (by decide) rfl rfl (by decide) rfl

/-- Claim C1 (corrected): on a parse failure the turn returns the fixed
fallback response, but the merged context's mode is the fallback's `ad_hoc`
(the `or` default never fires because an enum member is always truthy), not the
prior context's mode. -/
theorem parse_failure_sets_mode_ad_hoc (prior : Context) (mtp : Option MessageType)
    (raw : List Char) (now : Nat) (h : parseLLMOutput raw = none) :
    (process_message (some prior) mtp raw now).1 = fallbackLLMResponse ∧
      (process_message (some prior) mtp raw now).2.message_type = .AD_HOC := by
  have hfb : from_llm_output raw = fallbackLLMResponse := by
    unfold from_llm_output
    rw [h]
    rfl
  unfold process_message
  rw [hfb]
  exact ⟨rfl, rfl⟩

/-- Witness for C1's amended statement on unparseable output. -/
theorem parse_failure_sets_mode_ad_hoc_witness :
    (process_message (some ⟨none, .REPLANNING, none, 0⟩) none "garbage".data 0).1 =
        fallbackLLMResponse ∧
      (process_message (some ⟨none, .REPLANNING, none, 0⟩) none "garbage".data 0).2.message_type =
        .AD_HOC :=
  parse_failure_sets_mode_ad_hoc ⟨none, .REPLANNING, none, 0⟩ none "garbage".data 0 (by decide)

/-- Claim C1 counterexample: with an established `morning_planning` context and
an unparseable model output, the turn returns the fallback but the context's
mode is overwritten away from `morning_planning`. -/
theorem parse_failure_overwrites_mode_cex :
    from_llm_output "garbage".data = fallbackLLMResponse ∧
      (process_message (some ⟨some "write report".data, .MORNING_PLANNING, none, 0⟩)
          none "garbage".data 1).2.message_type ≠ .MORNING_PLANNING := by
  decide

/-- Claim C2: whenever both markers are found and the text after the last INFO
marker is valid JSON whose fields validate, the parser returns exactly the
trimmed text between the markers together with the JSON object's task, mode
and timing — and the marker indices used are the last occurrences. -/
theorem parser_round_trips_fields (text : List Char) (ri ii : Nat)
    (info : List (List Char × Json)) (task : Option (List Char)) (mt : MessageType)
    (timing : Option TaskTiming)
    (hr : pyRFind text responseMarker = some ri)
    (hi : pyRFind text infoMarker = some ii)
    (hjson : jsonLoads (pyStrip (text.drop (ii + 5))) = some (.obj info))
    (htask : decodeOptStr (dictGet info "task".data) = some task)
    (hmt : decodeMessageTypeField info = some mt)
    (htiming : decodeTimingField info = some timing) :
    from_llm_output text =
        { response := pyStrip (pySlice text (ri + 9) ii)
          task := task
          message_type := mt
          timing := timing } ∧
      (∀ j, ri < j → matchesAt text responseMarker j = false) ∧
      (∀ j, ii < j → matchesAt text infoMarker j = false) := by
  refine ⟨?_, ?_, ?_⟩
  · simp only [from_llm_output, parseLLMOutput, hr, hi, hjson, htask, hmt, htiming,
      Option.getD_some]
  · intro j hj
    by_cases hle : j ≤ text.length
    · exact (rfindFrom_spec text responseMarker text.length ri hr).2 j hj hle
    · exact matchesAt_false_of_gt_length text responseMarker (by decide) j
        (Nat.lt_of_not_le hle)
  · intro j hj
    by_cases hle : j ≤ text.length
    · exact (rfindFrom_spec text infoMarker text.length ii hi).2 j hj hle
    · exact matchesAt_false_of_gt_length text infoMarker (by decide) j
        (Nat.lt_of_not_le hle)

set_option maxRecDepth 100000 in
/-- Witness for C2: the prompt contract's worked example round-trips all four
structured fields. -/
theorem parser_round_trips_fields_witness :
    from_llm_output c2ExampleText =
      { response := "Lets lock in 30 minutes at 3pm.".data
        task := some "Call Mom".data
        message_type := .AD_HOC
        timing := some ⟨some 30, none, some "15:00".data, []⟩ } :=
  (parser_round_trips_fields c2ExampleText 0 42 c2ExampleInfo
    (some "Call Mom".data) .AD_HOC (some ⟨some 30, none, some "15:00".data, []⟩)
    rfl rfl rfl rfl rfl rfl).1.trans (by decide)

set_option maxRecDepth 100000 in
/-- Claim C6 counterexample: with only whitespace between the markers and valid
JSON after them, the parser succeeds and returns an empty `response_text`
instead of treating it as a parse failure. -/
theorem empty_response_text_cex :
    (from_llm_output c6Text).response = [] ∧
      from_llm_output c6Text ≠ fallbackLLMResponse := by
  decide

/-- Claim C6 (amended): the parser enforces no non-emptiness — every output is
either the constant (non-empty) fallback, or carries as `response_text` the
trimmed substring between the last markers, which may be empty. -/
theorem response_text_fallback_or_slice (text : List Char) :
    (parseLLMOutput text = none ∧ from_llm_output text = fallbackLLMResponse ∧
        fallbackLLMResponse.response ≠ []) ∨
      (∃ ri ii, pyRFind text responseMarker = some ri ∧
        pyRFind text infoMarker = some ii ∧
        (from_llm_output text).response = pyStrip (pySlice text (ri + 9) ii)) := by
  cases hp : parseLLMOutput text with
  | none =>
    left
    refine ⟨rfl, ?_, by decide⟩
    unfold from_llm_output
    rw [hp]
    rfl
  | some r =>
    right
    have hfl : from_llm_output text = r := by
      unfold from_llm_output
      rw [hp]
      rfl
    unfold parseLLMOutput at hp
    split at hp
    case h_1 ri ii hr hi =>
      refine ⟨ri, ii, hr, hi, ?_⟩
      dsimp only at hp
      split at hp
      case h_1 info hj =>
        split at hp
        case h_1 task mt timing htk hmt htm =>
          cases hp
          rw [hfl]
        case h_2 => exact Option.noConfusion hp
      case h_2 => exact Option.noConfusion hp
    case h_2 => exact Option.noConfusion hp

set_option maxRecDepth 100000 in
/-- Claim C7 counterexample: a turn starting with no prior context whose model
output carries timing (with a preferred time) but no task persists a context
with non-null `timing.preferred_time` and null `current_task`. -/
theorem timing_without_task_persisted_cex :
    (process_message none none c7Raw 0).2.current_task = none ∧
      (process_message none none c7Raw 0).2.timing =
        some ⟨none, none, some "15:00".data, []⟩ := by
  decide

/-- Claim C7 (amended): the persisted context has a non-null `current_task`
whenever the parsed response carries a non-empty task or the prior context
already had one; no invariant ties `timing.preferred_time` to `current_task`
beyond that, and the counterexample shows timing can be persisted taskless. -/
theorem task_persisted_when_available (prior : Context) (mtp : Option MessageType)
    (raw : List Char) (now : Nat)
    (h : (∃ t, (from_llm_output raw).task = some t ∧ t ≠ []) ∨
      prior.current_task ≠ none) :
    (process_message (some prior) mtp raw now).2.current_task ≠ none := by
  simp only [process_message, updateContext]
  rcases h with ⟨t, ht, hne⟩ | hprior
  · simp [pyOrOptStr, ht, hne]
  · cases hc : (from_llm_output raw).task with
    | none => simp [pyOrOptStr, hc, hprior]
    | some s => by_cases hs : s = [] <;> simp [pyOrOptStr, hc, hs, hprior]

/-- Witness for C7's amended statement: a prior context with a task keeps a
non-null task through a failed-parse turn. -/
theorem task_persisted_when_available_witness :
    (process_message (some ⟨some "write report".data, .AD_HOC, none, 0⟩) none
      "garbage".data 0).2.current_task ≠ none :=
  task_persisted_when_available ⟨some "write report".data, .AD_HOC, none, 0⟩ none
    "garbage".data 0 (Or.inr (by decide))

/-- Claim C10: when the INFO object lacks `message_type` entirely (markers
found, JSON valid, other fields validating), parsing succeeds — the fallback
path is not taken — with the mode defaulting to `ad_hoc` and the other fields
taken from the JSON. -/
theorem missing_message_type_defaults_ad_hoc (text : List Char) (ri ii : Nat)
    (info : List (List Char × Json)) (task : Option (List Char))
    (timing : Option TaskTiming)
    (hr : pyRFind text responseMarker = some ri)
    (hi : pyRFind text infoMarker = some ii)
    (hjson : jsonLoads (pyStrip (text.drop (ii + 5))) = some (.obj info))
    (hmtAbsent : dictGet info "message_type".data = none)
    (htask : decodeOptStr (dictGet info "task".data) = some task)
    (htiming : decodeTimingField info = some timing) :
    parseLLMOutput text =
      some { response := pyStrip (pySlice text (ri + 9) ii)
             task := task
             message_type := .AD_HOC
             timing := timing } := by
  have hmt : decodeMessageTypeField info = some .AD_HOC := by
    unfold decodeMessageTypeField
    rw [hmtAbsent]
  simp only [parseLLMOutput, hr, hi, hjson, htask, hmt, htiming]

set_option maxRecDepth 100000 in
/-- Witness for C10 on a concrete output whose INFO object has no
`message_type` field. -/
theorem missing_message_type_defaults_ad_hoc_witness :
    parseLLMOutput c10Text = some ⟨"ok".data, some "x".data, .AD_HOC, none⟩ :=
  (missing_message_type_defaults_ad_hoc c10Text 0 13 c10Info (some "x".data) none
    rfl rfl rfl rfl rfl rfl).trans (by decide)

end Anchor
